import Mathlib

/-!
Verification of the ai-diary journaling backend.

The development shallowly embeds the request handlers of the Express
server (`src/unnamed/part_000`, with `part_001` a translated duplicate)
and the oracle-response helpers (`src/src/deepseek.js`).  Strings that
matter for the normalizer claims are modelled as `List Char`, JS numbers
as `ℚ`, the remote model as an explicit oracle function argument, and
fallible oracle calls as `Except`.
-/

set_option maxHeartbeats 1000000

namespace AIDiary

/-! ## Sentiment labels and the future-detailed aggregator -/

/-- The three sentiment labels the analysis schema allows. -/
inductive SLabel where
  | positive
  | neutral
  | negative
deriving DecidableEq

/-- The mutable `sentimentCounts` record of the detailed-forecast handler. -/
structure SentCounts where
  positive : Nat
  negative : Nat
  neutral : Nat
deriving DecidableEq

/-- One step of `detailedResults.forEach(r => sentimentCounts[r.sentiment]++)`. -/
def bumpCount (c : SentCounts) (l : SLabel) : SentCounts :=
  match l with
  | .positive => { c with positive := c.positive + 1 }
  | .negative => { c with negative := c.negative + 1 }
  | .neutral => { c with neutral := c.neutral + 1 }

/-- The accumulated per-label counts over the detailed results. -/
def sentimentCounts (ls : List SLabel) : SentCounts :=
  ls.foldl bumpCount ⟨0, 0, 0⟩

/-- `sentimentCounts.positive >= sentimentCounts.negative ? "positive" : "negative"`. -/
def overallSentiment (ls : List SLabel) : String :=
  if (sentimentCounts ls).negative ≤ (sentimentCounts ls).positive then "positive"
  else "negative"

theorem sentimentCounts_foldl_positive (ls : List SLabel) (c : SentCounts) :
    (ls.foldl bumpCount c).positive = c.positive + ls.count SLabel.positive := by
  induction ls generalizing c with
  | nil => simp
  | cons x xs ih =>
    cases x <;>
      simp [List.count_cons, bumpCount, ih, Nat.add_assoc, Nat.add_comm, Nat.add_left_comm]

theorem sentimentCounts_foldl_negative (ls : List SLabel) (c : SentCounts) :
    (ls.foldl bumpCount c).negative = c.negative + ls.count SLabel.negative := by
  induction ls generalizing c with
  | nil => simp
  | cons x xs ih =>
    cases x <;>
      simp [List.count_cons, bumpCount, ih, Nat.add_assoc, Nat.add_comm, Nat.add_left_comm]

theorem sentimentCounts_positive (ls : List SLabel) :
    (sentimentCounts ls).positive = ls.count SLabel.positive := by
  simpa using sentimentCounts_foldl_positive ls ⟨0, 0, 0⟩

theorem sentimentCounts_negative (ls : List SLabel) :
    (sentimentCounts ls).negative = ls.count SLabel.negative := by
  simpa using sentimentCounts_foldl_negative ls ⟨0, 0, 0⟩

/-- C1: the aggregate sentiment is "positive" exactly when the positive count
is at least the negative count, is "negative" otherwise, is "positive" on an
all-neutral sequence, and can never be "neutral". -/
theorem overallSentiment_spec (ls : List SLabel) :
    (overallSentiment ls = "positive" ↔
      ls.count SLabel.negative ≤ ls.count SLabel.positive)
    ∧ (overallSentiment ls = "negative" ↔
      ls.count SLabel.positive < ls.count SLabel.negative)
    ∧ ((∀ x ∈ ls, x = SLabel.neutral) → overallSentiment ls = "positive")
    ∧ overallSentiment ls ≠ "neutral" := by
  have hpos := sentimentCounts_positive ls
  have hneg := sentimentCounts_negative ls
  refine ⟨?_, ?_, ?_, ?_⟩
  · unfold overallSentiment
    rw [hpos, hneg]
    split
    · rename_i hle
      exact ⟨fun _ => hle, fun _ => rfl⟩
    · rename_i hnle
      exact ⟨fun h => absurd h (by decide), fun h => absurd h hnle⟩
  · unfold overallSentiment
    rw [hpos, hneg]
    split
    · rename_i hle
      exact ⟨fun h => absurd h (by decide), fun h => by omega⟩
    · rename_i hnle
      exact ⟨fun _ => by omega, fun _ => rfl⟩
  · intro hall
    have hzero : ls.count SLabel.negative = 0 := by
      rw [List.count_eq_zero]
      intro hmem
      exact absurd (hall _ hmem) (by decide)
    unfold overallSentiment
    rw [hpos, hneg, hzero]
    simp
  · unfold overallSentiment
    split <;> decide

/-- Witness for C1: the all-neutral two-entry history aggregates to "positive". -/
theorem overallSentiment_spec_witness :
    overallSentiment [SLabel.neutral, SLabel.neutral] = "positive" :=
  (overallSentiment_spec [SLabel.neutral, SLabel.neutral]).2.2.1 (by decide)

/-! ## Emotion averaging in the future-detailed aggregator -/

/-- The four fixed emotion keys of the analysis schema. -/
inductive EmoKey where
  | joy
  | sadness
  | anger
  | fear
deriving DecidableEq

/-- A parsed emotions object; a key the oracle omitted is `none`. -/
def EmoMap : Type := EmoKey → Option ℚ

/-- `r.emotions[k] || 0`: a missing (or absent) value contributes `0`. -/
def emoGet (m : EmoMap) (k : EmoKey) : ℚ := (m k).getD 0

/-- The `emotionSums` accumulation loop of the detailed-forecast handler. -/
def emotionSums (l : List EmoMap) : EmoKey → ℚ :=
  l.foldl (fun acc r k => acc k + emoGet r k) (fun _ => 0)

/-- `+x.toFixed(2)`: rounding to two decimals, ties toward positive infinity,
as ECMAScript `toFixed` specifies on exact values. -/
def jsRound2 (q : ℚ) : ℚ := (Rat.floor (q * 100 + 1 / 2) : ℚ) / 100

/-- `avgEmotions[k] = +(emotionSums[k]/n).toFixed(2)` over `n` detailed results. -/
def avgEmotions (l : List EmoMap) (k : EmoKey) : ℚ :=
  jsRound2 (emotionSums l k / (l.length : ℚ))

theorem emotionSums_foldl (l : List EmoMap) (acc : EmoKey → ℚ) (k : EmoKey) :
    (l.foldl (fun acc r k => acc k + emoGet r k) acc) k =
      acc k + (l.map (fun r => emoGet r k)).sum := by
  induction l generalizing acc with
  | nil => simp
  | cons x xs ih =>
    simp [ih, add_assoc]

theorem emotionSums_eq_sum (l : List EmoMap) (k : EmoKey) :
    emotionSums l k = (l.map (fun r => emoGet r k)).sum := by
  simpa using emotionSums_foldl l (fun _ => 0) k

/-- The two-entry joy example of the aggregator claim. -/
def joyOneMap : EmoMap := fun k => match k with
  | .joy => some 1
  | _ => some 0

/-- The second map of the joy example, with joy intensity 3. -/
def joyThreeMap : EmoMap := fun k => match k with
  | .joy => some 3
  | _ => some 0

/-- C4: for a non-empty detail sequence, each averaged emotion is the sum of
that emotion's values (missing values contributing 0) divided by the length,
rounded to two decimals; and the joy values 1 and 3 average to exactly 2. -/
theorem avgEmotions_spec :
    (∀ (l : List EmoMap) (k : EmoKey), l ≠ [] →
      avgEmotions l k = jsRound2 ((l.map (fun r => emoGet r k)).sum / (l.length : ℚ)))
    ∧ avgEmotions [joyOneMap, joyThreeMap] EmoKey.joy = 2 := by
  constructor
  · intro l k _
    unfold avgEmotions
    rw [emotionSums_eq_sum]
  · have h2 : emotionSums [joyOneMap, joyThreeMap] EmoKey.joy = 4 := by
      simp [emotionSums_eq_sum, joyOneMap, joyThreeMap, emoGet]
      norm_num
    unfold avgEmotions
    rw [h2]
    norm_num [jsRound2]
    rw [Rat.floor_def']
    norm_num

/-- Witness for C4: the averaging formula instantiated on the joy example. -/
theorem avgEmotions_spec_witness :
    avgEmotions [joyOneMap, joyThreeMap] EmoKey.joy =
      jsRound2 ((([joyOneMap, joyThreeMap].map
        (fun r => emoGet r EmoKey.joy)).sum) / (([joyOneMap, joyThreeMap].length : ℚ))) :=
  avgEmotions_spec.1 [joyOneMap, joyThreeMap] EmoKey.joy (by simp)

/-! ## Oracle-response normalizers (deepseek.js)

Raw oracle text is modelled as `List Char`.  `replaceAllL` mirrors
`String.prototype.replace` with a global literal pattern (left-to-right,
non-overlapping), `trimL` mirrors `String.prototype.trim`, and `jsSlice`
with `jsIndexOf`/`jsLastIndexOf` mirror `slice`/`indexOf`/`lastIndexOf`
including their `-1` conventions. -/

/-- The backtick character of the code-fence delimiters. -/
def backtick : Char := Char.ofNat 96

/-- The opening-brace character. -/
def openBrace : Char := Char.ofNat 123

/-- The closing-brace character. -/
def closeBrace : Char := Char.ofNat 125

/-- The double-quote character. -/
def quoteC : Char := Char.ofNat 34

/-- Fuel-indexed global replace; the fuel bounds the number of scanned
positions, and `replaceAllL` supplies enough fuel for the whole input. -/
def replaceAllAux (pat rep : List Char) : Nat → List Char → List Char
  | 0, s => s
  | _ + 1, [] => []
  | fuel + 1, c :: rest =>
    if pat.isPrefixOf (c :: rest) then
      rep ++ replaceAllAux pat rep fuel (rest.drop (pat.length - 1))
    else
      c :: replaceAllAux pat rep fuel rest

/-- `s.replace(pat-as-global-literal-regex, rep)`. -/
def replaceAllL (pat rep s : List Char) : List Char :=
  replaceAllAux pat rep s.length s

/-- `s.trim()`: whitespace stripped from both ends. -/
def trimL (s : List Char) : List Char :=
  ((s.dropWhile Char.isWhitespace).reverse.dropWhile Char.isWhitespace).reverse

/-- The characters of the language-tagged opening fence. -/
def fenceJsonL : List Char := backtick :: backtick :: backtick :: ['j', 's', 'o', 'n']

/-- The characters of a bare fence. -/
def fenceL : List Char := backtick :: backtick :: [backtick]

/-- `content.replace(/BTBTBTjson/g, "").replace(/BTBTBT/g, "")` where BT is a backtick. -/
def stripFencesL (s : List Char) : List Char :=
  replaceAllL fenceL [] (replaceAllL fenceJsonL [] s)

/-- The cleaning pipeline of `analyzeText`: strip fences, then trim. -/
def analyzeCleanL (s : List Char) : List Char := trimL (stripFencesL s)

/-- The cleaning pipeline of `detectSabotage`: strip fences, then trim. -/
def sabotageCleanL (s : List Char) : List Char := trimL (stripFencesL s)

/-- First index of `c`, or `none`. -/
def idxFrom (c : Char) : List Char → Option Nat
  | [] => none
  | x :: xs => if x = c then some 0 else (idxFrom c xs).map (· + 1)

/-- `s.indexOf(c)` with the JS `-1` convention. -/
def jsIndexOf (c : Char) (s : List Char) : Int :=
  match idxFrom c s with
  | none => -1
  | some i => i

/-- `s.lastIndexOf(c)` with the JS `-1` convention. -/
def jsLastIndexOf (c : Char) (s : List Char) : Int :=
  match idxFrom c s.reverse with
  | none => -1
  | some i => (s.length : Int) - 1 - i

/-- JS index clamping: a negative index counts from the end, and every
index is clamped into `[0, length]`. -/
def jsClamp (n idx : Int) : Nat :=
  (if idx < 0 then max (n + idx) 0 else min idx n).toNat

/-- `s.slice(start, stop)` with JS clamping of negative and large indices. -/
def jsSlice (s : List Char) (start stop : Int) : List Char :=
  (s.take (jsClamp (s.length : Int) stop)).drop (jsClamp (s.length : Int) start)

/-- `raw.slice(raw.indexOf(openBrace), raw.lastIndexOf(closeBrace) + 1)`. -/
def braceSliceL (s : List Char) : List Char :=
  jsSlice s (jsIndexOf openBrace s) (jsLastIndexOf closeBrace s + 1)

/-- The cleaning pipeline of `judgeAction`: trim, strip fences, trim,
then take the first-brace-to-last-brace slice. -/
def judgeCleanL (s : List Char) : List Char :=
  braceSliceL (trimL (stripFencesL (trimL s)))

theorem replaceAllAux_of_not_mem (p : Char) (pt rep : List Char) (fuel : Nat) :
    ∀ s : List Char, p ∉ s → replaceAllAux (p :: pt) rep fuel s = s := by
  induction fuel with
  | zero => intro s _; rfl
  | succ n ih =>
    intro s hs
    match s with
    | [] => rfl
    | c :: rest =>
      have hpc : ¬ (p = c) := fun h => hs (h ▸ List.mem_cons_self _ _)
      have hpre : (p :: pt).isPrefixOf (c :: rest) = false := by
        simp only [List.isPrefixOf, Bool.and_eq_false_iff, beq_eq_false_iff_ne, ne_eq]
        exact Or.inl hpc
      simp only [replaceAllAux, hpre, Bool.false_eq_true, if_false]
      exact congrArg (c :: ·) (ih rest fun h => hs (List.mem_cons_of_mem _ h))

theorem stripFencesL_of_not_mem (s : List Char) (h : backtick ∉ s) :
    stripFencesL s = s := by
  unfold stripFencesL replaceAllL
  rw [show fenceJsonL = backtick :: (backtick :: backtick :: ['j', 's', 'o', 'n']) from rfl,
    replaceAllAux_of_not_mem _ _ _ _ s h,
    show fenceL = backtick :: (backtick :: [backtick]) from rfl,
    replaceAllAux_of_not_mem _ _ _ _ s h]

theorem dropWhile_append_cons (p : Char → Bool) (l1 : List Char) (b : Char)
    (l2 : List Char) (hb : ¬ p b = true) :
    (l1 ++ b :: l2).dropWhile p = l1.dropWhile p ++ b :: l2 := by
  induction l1 with
  | nil => simp [List.dropWhile_cons_of_neg hb]
  | cons a t ih =>
    by_cases hpa : p a = true
    · simpa [List.dropWhile_cons, hpa] using ih
    · simp [List.dropWhile_cons, hpa]

theorem trimL_shape (pre mid : List Char) :
    trimL (pre ++ openBrace :: (mid ++ [closeBrace])) =
      pre.dropWhile Char.isWhitespace ++ openBrace :: (mid ++ [closeBrace]) := by
  unfold trimL
  rw [dropWhile_append_cons _ _ _ _ (by decide)]
  have h2 : (pre.dropWhile Char.isWhitespace ++ openBrace :: (mid ++ [closeBrace])).reverse
      = closeBrace ::
        (mid.reverse ++ openBrace :: (pre.dropWhile Char.isWhitespace).reverse) := by
    simp
  rw [h2, List.dropWhile_cons_of_neg (by decide), ← h2, List.reverse_reverse]

theorem idxFrom_append_of_not_mem (c : Char) (l1 l2 : List Char) (h : c ∉ l1) :
    idxFrom c (l1 ++ l2) = (idxFrom c l2).map (· + l1.length) := by
  induction l1 with
  | nil =>
    cases hv : idxFrom c l2 <;> simp [hv]
  | cons a t ih =>
    have hac : ¬ (a = c) := fun hh => h (hh ▸ List.mem_cons_self _ _)
    have ht : c ∉ t := fun hh => h (List.mem_cons_of_mem _ hh)
    cases hv : idxFrom c l2 <;>
      simp [idxFrom, hac, ih ht, hv, Nat.add_assoc, Nat.add_comm, Nat.add_left_comm]

theorem braceSliceL_shape (pre mid : List Char) (hpre : openBrace ∉ pre) :
    braceSliceL (pre ++ openBrace :: (mid ++ [closeBrace])) =
      openBrace :: (mid ++ [closeBrace]) := by
  have hidx : idxFrom openBrace (pre ++ openBrace :: (mid ++ [closeBrace]))
      = some pre.length := by
    rw [idxFrom_append_of_not_mem _ _ _ hpre]
    simp [idxFrom]
  have hrev : (pre ++ openBrace :: (mid ++ [closeBrace])).reverse
      = closeBrace :: (mid.reverse ++ openBrace :: pre.reverse) := by simp
  have hlast : idxFrom closeBrace
      ((pre ++ openBrace :: (mid ++ [closeBrace])).reverse) = some 0 := by
    rw [hrev]; simp [idxFrom]
  have hlen : (pre ++ openBrace :: (mid ++ [closeBrace])).length
      = pre.length + mid.length + 2 := by
    simp; omega
  have hidx' : jsIndexOf openBrace (pre ++ openBrace :: (mid ++ [closeBrace]))
      = (pre.length : Int) := by
    unfold jsIndexOf
    rw [hidx]
  have hlast' : jsLastIndexOf closeBrace (pre ++ openBrace :: (mid ++ [closeBrace]))
      = ((pre ++ openBrace :: (mid ++ [closeBrace])).length : Int) - 1 := by
    unfold jsLastIndexOf
    rw [hlast]
    push_cast
    ring
  unfold braceSliceL jsSlice
  rw [hidx', hlast']
  have h4 : jsClamp ((pre ++ openBrace :: (mid ++ [closeBrace])).length : Int)
      (pre.length : Int) = pre.length := by
    unfold jsClamp
    rw [hlen]
    omega
  have h5 : jsClamp ((pre ++ openBrace :: (mid ++ [closeBrace])).length : Int)
      (((pre ++ openBrace :: (mid ++ [closeBrace])).length : Int) - 1 + 1)
      = (pre ++ openBrace :: (mid ++ [closeBrace])).length := by
    unfold jsClamp
    omega
  rw [h4, h5, List.take_length, List.drop_left]

theorem mem_trimL (c : Char) (s : List Char) (h : c ∈ trimL s) : c ∈ s := by
  unfold trimL at h
  rw [List.mem_reverse] at h
  have h1 := (List.dropWhile_sublist Char.isWhitespace).mem h
  rw [List.mem_reverse] at h1
  exact (List.dropWhile_sublist Char.isWhitespace).mem h1

theorem dropWhile_dropWhile (p : Char → Bool) (l : List Char) :
    (l.dropWhile p).dropWhile p = l.dropWhile p := by
  induction l with
  | nil => rfl
  | cons a t ih =>
    by_cases hpa : p a = true
    · simpa [List.dropWhile_cons, hpa] using ih
    · simp [List.dropWhile_cons, hpa]

/-- C3 (amended): only the judgment normalizer takes the substring from the
first opening brace to the last closing brace; the sentiment and sabotage
normalizers strip code fences and whitespace only, leaving surrounding
prose in place. -/
theorem braceExtraction_spec :
    (∀ pre mid : List Char, openBrace ∉ pre → backtick ∉ pre → backtick ∉ mid →
      judgeCleanL (pre ++ openBrace :: (mid ++ [closeBrace])) =
        openBrace :: (mid ++ [closeBrace]))
    ∧ (∀ s : List Char, backtick ∉ s → trimL s = s →
      analyzeCleanL s = s ∧ sabotageCleanL s = s) := by
  constructor
  · intro pre mid hpre hbt1 hbt2
    unfold judgeCleanL
    rw [trimL_shape]
    have hsub : ∀ c, c ∈ pre.dropWhile Char.isWhitespace → c ∈ pre := fun c hc =>
      (List.dropWhile_sublist Char.isWhitespace).mem hc
    have hnb : backtick ∉
        pre.dropWhile Char.isWhitespace ++ openBrace :: (mid ++ [closeBrace]) := by
      simp only [List.mem_append, List.mem_cons, List.mem_singleton]
      rintro (h | h | h | h)
      · exact hbt1 (hsub _ h)
      · exact absurd h (by decide)
      · exact hbt2 h
      · exact absurd h (by decide)
    rw [stripFencesL_of_not_mem _ hnb, trimL_shape, dropWhile_dropWhile]
    exact braceSliceL_shape _ _ fun h => hpre (hsub _ h)
  · intro s hbt htrim
    have h1 : analyzeCleanL s = s := by
      unfold analyzeCleanL
      rw [stripFencesL_of_not_mem _ hbt, htrim]
    exact ⟨h1, h1⟩

/-- The spec's prose-surrounded response: `Sure! ` followed by a small
JSON object. -/
def sureList : List Char :=
  ['S', 'u', 'r', 'e', '!', ' '] ++
    openBrace :: ([quoteC, 'a', quoteC, ':', '1'] ++ [closeBrace])

/-- The brace-delimited JSON part of `sureList`. -/
def jsonPartList : List Char :=
  openBrace :: ([quoteC, 'a', quoteC, ':', '1'] ++ [closeBrace])

/-- Counterexample to C3 as stated: on the spec's own prose-surrounded
example, the sentiment normalizer keeps the prose (its output still starts
with `S`) instead of taking the first-to-last-brace substring, so the
subsequent `JSON.parse` cannot see a bare JSON object. -/
theorem braceExtraction_counterexample :
    analyzeCleanL sureList = sureList
    ∧ braceSliceL sureList = jsonPartList
    ∧ analyzeCleanL sureList ≠ braceSliceL sureList
    ∧ (analyzeCleanL sureList).head? = some 'S' := by
  refine ⟨by decide, by decide, by decide, by decide⟩

/-- Witness for C3 (amended) on the spec's example strings. -/
theorem braceExtraction_spec_witness :
    judgeCleanL (['S', 'u', 'r', 'e', '!', ' '] ++
        openBrace :: ([quoteC, 'a', quoteC, ':', '1'] ++ [closeBrace])) =
      openBrace :: ([quoteC, 'a', quoteC, ':', '1'] ++ [closeBrace])
    ∧ (analyzeCleanL ['h', 'i'] = ['h', 'i'] ∧ sabotageCleanL ['h', 'i'] = ['h', 'i']) :=
  ⟨braceExtraction_spec.1 ['S', 'u', 'r', 'e', '!', ' ']
      [quoteC, 'a', quoteC, ':', '1'] (by decide) (by decide) (by decide),
    braceExtraction_spec.2 ['h', 'i'] (by decide) (by decide)⟩

/-! ## POST /api/forecast -/

/-- The result of one run of the forecast handler: HTTP status, how many
oracle calls it made, and the body text it sent back. -/
structure ForecastOutcome where
  status : Nat
  oracleCalls : Nat
  body : String
deriving DecidableEq

/-- The forecast handler: `if (!text || !text.trim()) return 400` with no
oracle call, otherwise one free-text completion.  A missing `text` field is
`none`; the oracle maps the user text to the completion. -/
def forecastHandler (text : Option (List Char)) (oracle : List Char → String) :
    ForecastOutcome :=
  match text with
  | none => { status := 400, oracleCalls := 0, body := "No text provided for forecast" }
  | some s =>
    if s.isEmpty || (trimL s).isEmpty then
      { status := 400, oracleCalls := 0, body := "No text provided for forecast" }
    else
      { status := 200, oracleCalls := 1, body := oracle s }

theorem trimL_eq_nil_iff (s : List Char) :
    trimL s = [] ↔ ∀ c ∈ s, c.isWhitespace := by
  unfold trimL
  rw [List.reverse_eq_nil_iff, List.dropWhile_eq_nil_iff]
  constructor
  · intro h c hc
    rcases List.mem_append.1
        ((List.takeWhile_append_dropWhile Char.isWhitespace s) ▸ hc) with h1 | h1
    · exact List.mem_takeWhile_imp h1
    · exact h c (List.mem_reverse.2 h1)
  · intro h c hc
    exact h c ((List.dropWhile_sublist Char.isWhitespace).mem (List.mem_reverse.1 hc))

/-- C7: a forecast request whose text is missing, empty, or all-whitespace
gets HTTP 400 and triggers no oracle call; a request with non-blank text
triggers exactly one oracle call. -/
theorem forecastHandler_spec (text : Option (List Char)) (oracle : List Char → String) :
    ((text = none ∨ ∃ s, text = some s ∧ ∀ c ∈ s, c.isWhitespace) →
      (forecastHandler text oracle).status = 400
      ∧ (forecastHandler text oracle).oracleCalls = 0)
    ∧ (∀ s, text = some s → (∃ c ∈ s, ¬ c.isWhitespace) →
      (forecastHandler text oracle).oracleCalls = 1) := by
  constructor
  · rintro (rfl | ⟨s, rfl, hws⟩)
    · exact ⟨rfl, rfl⟩
    · have h : (trimL s).isEmpty = true := by
        rw [List.isEmpty_iff, trimL_eq_nil_iff]
        exact hws
      simp [forecastHandler, h]
  · rintro s rfl ⟨c, hc, hcw⟩
    have h1 : s.isEmpty = false := by
      rw [List.isEmpty_eq_false_iff_exists_mem]
      exact ⟨c, hc⟩
    have h2 : (trimL s).isEmpty = false := by
      rw [List.isEmpty_eq_false_iff_exists_mem]
      by_contra hcon
      push_neg at hcon
      have : trimL s = [] := List.eq_nil_iff_forall_not_mem.2 hcon
      exact hcw ((trimL_eq_nil_iff s).1 this c hc)
    simp [forecastHandler, h1, h2]

/-- A concrete oracle for the forecast witness. -/
def constOracle : List Char → String := fun _ => "fine"

/-- Witness for C7: whitespace-only text is rejected without an oracle call,
and non-blank text makes exactly one call. -/
theorem forecastHandler_spec_witness :
    ((forecastHandler (some [' ', ' ']) constOracle).status = 400
      ∧ (forecastHandler (some [' ', ' ']) constOracle).oracleCalls = 0)
    ∧ (forecastHandler (some ['h', 'i']) constOracle).oracleCalls = 1 :=
  ⟨(forecastHandler_spec (some [' ', ' ']) constOracle).1
      (Or.inr ⟨[' ', ' '], rfl, by decide⟩),
    (forecastHandler_spec (some ['h', 'i']) constOracle).2 ['h', 'i'] rfl
      ⟨'h', by decide, by decide⟩⟩

/-! ## POST /api/comments-batch -/

/-- One item of the batch request body. -/
structure BatchItem where
  id : Nat
  content : Option String
deriving DecidableEq

/-- One item of the batch response. -/
structure BatchResult where
  id : Nat
  comment : String
deriving DecidableEq

/-- The `entries` field of the request body as the JS handler sees it:
absent, present but not iterable (null, a number, a boolean, a plain
object), an array of items, or a string — which is not an array but is
iterable, `for...of` visiting its characters. -/
inductive ReqEntries where
  | missing
  | nonIterable
  | array (l : List BatchItem)
  | strVal (s : List Char)

/-- The per-item try/catch body: a failed `generateDailyComment` yields the
fixed placeholder. -/
def batchItemResult (oracle : Option String → Except Unit String) (e : BatchItem) :
    BatchResult :=
  { id := e.id,
    comment :=
      match oracle e.content with
      | .ok c => c
      | .error _ => "AI unavailable" }

/-- The `for (const e of entries)` accumulation loop. -/
def batchLoop (oracle : Option String → Except Unit String) (items : List BatchItem) :
    List BatchResult :=
  items.foldl (fun acc e => acc ++ [batchItemResult oracle e]) []

/-- One response row produced when iterating a string-valued `entries`:
the iterated element is a one-character string, so `e.id` is `undefined`
(modelled `none`) and `e.content` is `undefined` (`none`). -/
structure CharBatchResult where
  id : Option Nat
  comment : String
deriving DecidableEq

/-- The per-item try/catch body on an iterated character: the oracle is
called with the character's undefined `content`, and a failure yields the
fixed placeholder. -/
def charItemResult (oracle : Option String → Except Unit String) (c : Char) :
    CharBatchResult :=
  { id := none,
    comment :=
      match oracle none with
      | .ok s => s
      | .error _ => "AI unavailable" }

/-- The `for (const e of entries)` accumulation loop over a string value. -/
def charLoop (oracle : Option String → Except Unit String) (s : List Char) :
    List CharBatchResult :=
  s.foldl (fun acc c => acc ++ [charItemResult oracle c]) []

/-- The response of the batch handler. -/
inductive BatchResponse where
  | ok (results : List BatchResult)
  | okChars (results : List CharBatchResult)
  | err (status : Nat) (msg : String)
deriving DecidableEq

/-- The batch handler: iterating a missing or non-iterable `entries` throws
a TypeError, which the outer catch maps to HTTP 500; an array is processed
item by item; a string value is iterable, so it is processed character by
character and answered with a results list. -/
def commentsBatchHandler (entries : ReqEntries)
    (oracle : Option String → Except Unit String) : BatchResponse :=
  match entries with
  | .array l => .ok (batchLoop oracle l)
  | .strVal s => .okChars (charLoop oracle s)
  | _ => .err 500 "Batch processing failed"

theorem batchLoop_foldl (oracle : Option String → Except Unit String)
    (items : List BatchItem) (acc : List BatchResult) :
    items.foldl (fun acc e => acc ++ [batchItemResult oracle e]) acc
      = acc ++ items.map (batchItemResult oracle) := by
  induction items generalizing acc with
  | nil => simp
  | cons x xs ih => simp [ih]

theorem batchLoop_eq_map (oracle : Option String → Except Unit String)
    (items : List BatchItem) :
    batchLoop oracle items = items.map (batchItemResult oracle) := by
  simpa using batchLoop_foldl oracle items []

/-- C6: the batch handler returns one result per input item, in input order,
each carrying the input's id; a failing item's comment is the fixed
placeholder while a succeeding item's comment is the oracle's text. -/
theorem commentsBatch_spec (items : List BatchItem)
    (oracle : Option String → Except Unit String) :
    commentsBatchHandler (.array items) oracle = .ok (batchLoop oracle items)
    ∧ (batchLoop oracle items).length = items.length
    ∧ ∀ i (h1 : i < items.length) (h2 : i < (batchLoop oracle items).length),
      ((batchLoop oracle items).get ⟨i, h2⟩).id = (items.get ⟨i, h1⟩).id
      ∧ (∀ c, oracle (items.get ⟨i, h1⟩).content = .ok c →
        ((batchLoop oracle items).get ⟨i, h2⟩).comment = c)
      ∧ (oracle (items.get ⟨i, h1⟩).content = .error () →
        ((batchLoop oracle items).get ⟨i, h2⟩).comment = "AI unavailable") := by
  refine ⟨rfl, by simp [batchLoop_eq_map], ?_⟩
  intro i h1 h2
  have hg : (batchLoop oracle items).get ⟨i, h2⟩
      = batchItemResult oracle (items.get ⟨i, h1⟩) := by
    have := batchLoop_eq_map oracle items
    rw [List.get_of_eq this]
    exact List.get_map _
  refine ⟨?_, ?_, ?_⟩
  · rw [hg]; rfl
  · intro c hc
    rw [hg]
    unfold batchItemResult
    rw [hc]
  · intro hc
    rw [hg]
    unfold batchItemResult
    rw [hc]

/-- A concrete oracle for the batch witness: fails on `none`, echoes "ok"
otherwise. -/
def flakyOracle : Option String → Except Unit String :=
  fun c => match c with
  | none => .error ()
  | some _ => .ok "ok"

/-- Two concrete batch items; the first one's oracle call fails. -/
def batchItemsEx : List BatchItem := [⟨7, none⟩, ⟨8, some "fine day"⟩]

/-- Witness for C6: on a two-item batch whose first item fails, both items
are answered in order, the first with the placeholder. -/
theorem commentsBatch_spec_witness :
    (batchLoop flakyOracle batchItemsEx).length = batchItemsEx.length
    ∧ ((batchLoop flakyOracle batchItemsEx).get
        ⟨0, by decide⟩).comment = "AI unavailable"
    ∧ ((batchLoop flakyOracle batchItemsEx).get ⟨1, by decide⟩).id = 8 :=
  ⟨(commentsBatch_spec batchItemsEx flakyOracle).2.1,
    ((commentsBatch_spec batchItemsEx flakyOracle).2.2 0 (by decide) (by decide)).2.2 rfl,
    (((commentsBatch_spec batchItemsEx flakyOracle).2.2 1 (by decide) (by decide)).1).trans rfl⟩

theorem charLoop_foldl (oracle : Option String → Except Unit String)
    (s : List Char) (acc : List CharBatchResult) :
    s.foldl (fun acc c => acc ++ [charItemResult oracle c]) acc
      = acc ++ s.map (charItemResult oracle) := by
  induction s generalizing acc with
  | nil => simp
  | cons x xs ih => simp [ih]

theorem charLoop_eq_map (oracle : Option String → Except Unit String)
    (s : List Char) :
    charLoop oracle s = s.map (charItemResult oracle) := by
  simpa using charLoop_foldl oracle s []

/-- Counterexample to C10 as stated: a string-valued `entries` is not a
list, yet the handler does not answer the outer 500 — `for...of` iterates
the string's characters and the endpoint returns a results list, one row
per character, with the per-item placeholder isolation applying (here the
oracle call on the undefined content fails, so each comment is the
placeholder). -/
theorem commentsBatch_counterexample :
    commentsBatchHandler (.strVal ['a', 'b']) flakyOracle
      = .okChars [charItemResult flakyOracle 'a', charItemResult flakyOracle 'b']
    ∧ commentsBatchHandler (.strVal ['a', 'b']) flakyOracle
        ≠ .err 500 "Batch processing failed"
    ∧ (charItemResult flakyOracle 'a').comment = "AI unavailable"
    ∧ (charItemResult flakyOracle 'a').id = none :=
  ⟨rfl, by decide, rfl, rfl⟩

/-- C10 (amended): when the request body's `entries` is missing or not
iterable, the batch handler answers HTTP 500 with the outer error payload
and no results list of either kind; any iterable `entries` is processed
per item with placeholder isolation — in particular a string value, though
not a list, is iterated character by character, yielding one result per
character whose id is undefined and whose comment is the oracle's text or,
on a per-item failure, the fixed placeholder. -/
theorem commentsBatch_iterability_spec (oracle : Option String → Except Unit String) :
    (∀ entries : ReqEntries, entries = .missing ∨ entries = .nonIterable →
      commentsBatchHandler entries oracle = .err 500 "Batch processing failed"
      ∧ (∀ rs, commentsBatchHandler entries oracle ≠ .ok rs)
      ∧ (∀ rs, commentsBatchHandler entries oracle ≠ .okChars rs))
    ∧ (∀ s : List Char,
      commentsBatchHandler (.strVal s) oracle = .okChars (charLoop oracle s)
      ∧ (charLoop oracle s).length = s.length
      ∧ ∀ i (h1 : i < s.length) (h2 : i < (charLoop oracle s).length),
        ((charLoop oracle s).get ⟨i, h2⟩).id = none
        ∧ (∀ c, oracle none = .ok c → ((charLoop oracle s).get ⟨i, h2⟩).comment = c)
        ∧ (oracle none = .error () →
          ((charLoop oracle s).get ⟨i, h2⟩).comment = "AI unavailable")) := by
  constructor
  · rintro entries (rfl | rfl) <;>
      exact ⟨rfl, fun rs hc => BatchResponse.noConfusion hc,
        fun rs hc => BatchResponse.noConfusion hc⟩
  · intro s
    refine ⟨rfl, by simp [charLoop_eq_map], ?_⟩
    intro i h1 h2
    have hg : (charLoop oracle s).get ⟨i, h2⟩
        = charItemResult oracle (s.get ⟨i, h1⟩) := by
      have := charLoop_eq_map oracle s
      rw [List.get_of_eq this]
      exact List.get_map _
    refine ⟨?_, ?_, ?_⟩
    · rw [hg]; rfl
    · intro c hc
      rw [hg]
      unfold charItemResult
      rw [hc]
    · intro hc
      rw [hg]
      unfold charItemResult
      rw [hc]

/-- Witness for C10 (amended): a body with no iterable `entries` gets the
outer 500, while a string-valued `entries` of two characters gets two
placeholder results. -/
theorem commentsBatch_iterability_spec_witness :
    commentsBatchHandler .missing flakyOracle = .err 500 "Batch processing failed"
    ∧ commentsBatchHandler .nonIterable flakyOracle = .err 500 "Batch processing failed"
    ∧ (charLoop flakyOracle ['a', 'b']).length = (['a', 'b'] : List Char).length
    ∧ ((charLoop flakyOracle ['a', 'b']).get ⟨0, by decide⟩).comment = "AI unavailable" :=
  ⟨((commentsBatch_iterability_spec flakyOracle).1 .missing (Or.inl rfl)).1,
    ((commentsBatch_iterability_spec flakyOracle).1 .nonIterable (Or.inr rfl)).1,
    ((commentsBatch_iterability_spec flakyOracle).2 ['a', 'b']).2.1,
    (((commentsBatch_iterability_spec flakyOracle).2 ['a', 'b']).2.2 0 (by decide)
      (by decide)).2.2 rfl⟩

/-! ## The entry store, POST /api/entries and GET /api/entries -/

/-- The parsed result of the sentiment oracle. -/
structure AnalysisResult where
  score : ℚ
  label : String
  emotions : EmoMap

/-- The value held by an entry's `emotions` field: either the serialized
JSON text of a mapping (what `JSON.stringify` produces and what the TEXT
column stores) or an actual mapping. -/
inductive EmotionsField where
  | jsonString (m : EmoMap)
  | mapping (m : EmoMap)

/-- Whether the field holds an actual mapping rather than serialized text. -/
def EmotionsField.isMapping : EmotionsField → Bool
  | .mapping _ => true
  | _ => false

/-- A row of the single `entries` table; `created_at` is modelled as a
numeric timestamp since the ISO strings are compared chronologically. -/
structure DiaryEntry where
  id : Nat
  content : Option String
  sentiment_score : ℚ
  sentiment_label : String
  emotions : EmotionsField
  created_at : Nat

/-- The entry object the create handler builds: note
`emotions: JSON.stringify(analysis.emotions)`. -/
def mkEntry (newId : Nat) (content : Option String) (a : AnalysisResult)
    (now : Nat) : DiaryEntry :=
  { id := newId, content := content, sentiment_score := a.score,
    sentiment_label := a.label, emotions := .jsonString a.emotions,
    created_at := now }

/-- What one run of the create handler did: oracle calls made, resulting
store, and HTTP response (entry on success, status/message on failure). -/
structure CreateOutcome where
  oracleCalls : Nat
  store : List DiaryEntry
  response : Except (Nat × String) DiaryEntry

/-- The POST /api/entries handler: `analyzeText(content)` runs before any
check, unconditionally, with whatever `req.body.content` held (`none`
models a missing field); on success one row is inserted and echoed back,
on failure the catch answers 500. -/
def createEntryHandler (body : Option String)
    (oracle : Option String → Except Unit AnalysisResult)
    (newId now : Nat) (store : List DiaryEntry) : CreateOutcome :=
  match oracle body with
  | .error _ =>
    { oracleCalls := 1, store := store, response := .error (500, "AI analysis failed") }
  | .ok a =>
    { oracleCalls := 1, store := store ++ [mkEntry newId body a now],
      response := .ok (mkEntry newId body a now) }

/-- `ORDER BY created_at ASC`. -/
def earlierFirst (a b : DiaryEntry) : Prop := a.created_at ≤ b.created_at

instance : DecidableRel earlierFirst := fun a b => Nat.decLe a.created_at b.created_at

instance : IsTotal DiaryEntry earlierFirst := ⟨fun a b => Nat.le_total _ _⟩

instance : IsTrans DiaryEntry earlierFirst := ⟨fun _ _ _ => Nat.le_trans⟩

/-- `ORDER BY created_at DESC`. -/
def laterFirst (a b : DiaryEntry) : Prop := b.created_at ≤ a.created_at

instance : DecidableRel laterFirst := fun a b => Nat.decLe b.created_at a.created_at

/-- The GET /api/entries handler: all rows, newest first. -/
def listEntriesHandler (store : List DiaryEntry) : List DiaryEntry :=
  store.insertionSort laterFirst

/-- An always-failing sentiment oracle. -/
def failOracle : Option String → Except Unit AnalysisResult := fun _ => .error ()

/-- A fixed successful analysis. -/
def okAnalysis : AnalysisResult :=
  { score := 1, label := "positive", emotions := fun _ => some 1 }

/-- An always-succeeding sentiment oracle. -/
def okOracle : Option String → Except Unit AnalysisResult := fun _ => .ok okAnalysis

/-- Counterexample to C2 as stated: a request with no `content` still makes
one sentiment-analysis call (the claim requires zero). -/
theorem createEntry_counterexample :
    (createEntryHandler none failOracle 0 0 []).oracleCalls = 1
    ∧ ¬ (createEntryHandler none failOracle 0 0 []).oracleCalls = 0 :=
  ⟨rfl, by decide⟩

/-- C2 (amended): the create handler never validates `content`; it runs the
sentiment analysis exactly once for every request, including one whose
content is missing; when the analysis succeeds it appends exactly one row
whose content equals the input and returns that stored entry, and when the
analysis fails it stores nothing and answers 500. -/
theorem createEntry_spec (body : Option String)
    (oracle : Option String → Except Unit AnalysisResult)
    (newId now : Nat) (store : List DiaryEntry) :
    (createEntryHandler body oracle newId now store).oracleCalls = 1
    ∧ (∀ a, oracle body = .ok a →
      (createEntryHandler body oracle newId now store).store
          = store ++ [mkEntry newId body a now]
      ∧ (mkEntry newId body a now).content = body
      ∧ (createEntryHandler body oracle newId now store).response
          = .ok (mkEntry newId body a now))
    ∧ (oracle body = .error () →
      (createEntryHandler body oracle newId now store).store = store
      ∧ (createEntryHandler body oracle newId now store).response
          = .error (500, "AI analysis failed")) := by
  cases h : oracle body with
  | error e =>
    refine ⟨by simp [createEntryHandler, h], fun a ha => ?_, fun _ => ?_⟩
    · exact absurd ha (by simp)
    · exact ⟨by simp [createEntryHandler, h], by simp [createEntryHandler, h]⟩
  | ok a =>
    refine ⟨by simp [createEntryHandler, h], fun a2 ha => ?_, fun he => ?_⟩
    · cases ha
      exact ⟨by simp [createEntryHandler, h], rfl, by simp [createEntryHandler, h]⟩
    · exact absurd he (by simp)

/-- Witness for C2 (amended): a successful creation stores the one row and
echoes it. -/
theorem createEntry_spec_witness :
    (createEntryHandler (some "hello") okOracle 3 9 []).oracleCalls = 1
    ∧ (createEntryHandler (some "hello") okOracle 3 9 []).store
        = [] ++ [mkEntry 3 (some "hello") okAnalysis 9]
    ∧ (mkEntry 3 (some "hello") okAnalysis 9).content = some "hello" :=
  ⟨(createEntry_spec (some "hello") okOracle 3 9 []).1,
    ((createEntry_spec (some "hello") okOracle 3 9 []).2.1 okAnalysis rfl).1,
    ((createEntry_spec (some "hello") okOracle 3 9 []).2.1 okAnalysis rfl).2.1⟩

/-- Counterexample to C5 as stated: the entry the create handler returns
carries `emotions` as the serialized JSON string, not a mapping. -/
theorem emotionsField_counterexample :
    (createEntryHandler (some "hi") okOracle 1 5 []).response
        = .ok (mkEntry 1 (some "hi") okAnalysis 5)
    ∧ (mkEntry 1 (some "hi") okAnalysis 5).emotions
        = .jsonString okAnalysis.emotions
    ∧ (mkEntry 1 (some "hi") okAnalysis 5).emotions.isMapping = false :=
  ⟨rfl, rfl, rfl⟩

/-- C5 (amended): entries returned by the create endpoint carry `emotions`
as the serialized JSON string of the analysis' emotion mapping, and the
list endpoint returns stored rows unchanged, so no returned `emotions` is a
mapping when the stored ones are not. -/
theorem emotionsField_spec :
    (∀ (body : Option String) (oracle : Option String → Except Unit AnalysisResult)
      (newId now : Nat) (store : List DiaryEntry) (a : AnalysisResult),
      oracle body = .ok a →
      (createEntryHandler body oracle newId now store).response
          = .ok (mkEntry newId body a now)
      ∧ (mkEntry newId body a now).emotions = .jsonString a.emotions
      ∧ (mkEntry newId body a now).emotions.isMapping = false)
    ∧ (∀ (store : List DiaryEntry) (e : DiaryEntry),
      e ∈ listEntriesHandler store ↔ e ∈ store)
    ∧ (∀ store : List DiaryEntry, (∀ e ∈ store, e.emotions.isMapping = false) →
      ∀ e ∈ listEntriesHandler store, e.emotions.isMapping = false) := by
  refine ⟨fun body oracle newId now store a ha => ?_, fun store e => ?_, ?_⟩
  · exact ⟨by simp [createEntryHandler, ha], rfl, rfl⟩
  · exact (List.perm_insertionSort laterFirst store).mem_iff
  · intro store hall e he
    exact hall e ((List.perm_insertionSort laterFirst store).mem_iff.1 he)

/-- Witness for C5 (amended) at a concrete creation and a one-row store. -/
theorem emotionsField_spec_witness :
    ((createEntryHandler (some "hi") okOracle 1 5 []).response
        = .ok (mkEntry 1 (some "hi") okAnalysis 5)
      ∧ (mkEntry 1 (some "hi") okAnalysis 5).emotions
          = .jsonString okAnalysis.emotions
      ∧ (mkEntry 1 (some "hi") okAnalysis 5).emotions.isMapping = false)
    ∧ (mkEntry 1 (some "hi") okAnalysis 5
        ∈ listEntriesHandler [mkEntry 1 (some "hi") okAnalysis 5]
      ↔ mkEntry 1 (some "hi") okAnalysis 5 ∈ [mkEntry 1 (some "hi") okAnalysis 5]) :=
  ⟨emotionsField_spec.1 (some "hi") okOracle 1 5 [] okAnalysis rfl,
    emotionsField_spec.2.1 [mkEntry 1 (some "hi") okAnalysis 5]
      (mkEntry 1 (some "hi") okAnalysis 5)⟩

/-! ## GET /api/judge-all and GET /api/sabotage -/

/-- The parsed judgment schema. -/
structure JudgmentR where
  benefit : ℚ
  risk : ℚ
  morality : ℚ
  consequences : String
  verdict : String

/-- One judge-all result row. -/
structure JudgeResult where
  id : Nat
  date : Nat
  content : Option String
  benefit : ℚ
  risk : ℚ
  morality : ℚ
  consequences : String
  verdict : String

/-- The result object built from an entry and its judgment. -/
def mkJudgeResult (e : DiaryEntry) (j : JudgmentR) : JudgeResult :=
  { id := e.id, date := e.created_at, content := e.content,
    benefit := j.benefit, risk := j.risk, morality := j.morality,
    consequences := j.consequences, verdict := j.verdict }

/-- The parsed sabotage schema. -/
structure SabotageR where
  procrastination : ℚ
  self_deception : ℚ
  loops : ℚ
  summary : String

/-- One sabotage result row. -/
structure SabResult where
  id : Nat
  date : Nat
  content : Option String
  procrastination : ℚ
  self_deception : ℚ
  loops : ℚ
  summary : String

/-- The result object built from an entry and its sabotage scores. -/
def mkSabResult (e : DiaryEntry) (s : SabotageR) : SabResult :=
  { id := e.id, date := e.created_at, content := e.content,
    procrastination := s.procrastination, self_deception := s.self_deception,
    loops := s.loops, summary := s.summary }

/-- `Promise.all`: the whole join succeeds only when every member does, and
the collected values keep the input positions. -/
def promiseAll {α : Type} : List (Except Unit α) → Except Unit (List α)
  | [] => .ok []
  | .error e :: _ => .error e
  | .ok a :: xs =>
    match promiseAll xs with
    | .error e => .error e
    | .ok l => .ok (a :: l)

/-- `SELECT * FROM entries ORDER BY created_at ASC`. -/
def sortAscCreated (store : List DiaryEntry) : List DiaryEntry :=
  store.insertionSort earlierFirst

/-- The common shape of judge-all and sabotage-all: read rows ascending,
return `{results: []}` immediately on an empty store, otherwise fan out one
oracle call per row and join with `Promise.all`, keeping row order; a
rejected join is caught and answered with the endpoint's error message.
The second component counts oracle calls issued. -/
def fanoutAllHandler {J R : Type} (errMsg : String) (mk : DiaryEntry → J → R)
    (store : List DiaryEntry) (oracle : Option String → Except Unit J) :
    Except String (List R) × Nat :=
  if (sortAscCreated store).isEmpty then (.ok [], 0)
  else
    match promiseAll ((sortAscCreated store).map fun e => (oracle e.content).map (mk e)) with
    | .ok res => (.ok res, (sortAscCreated store).length)
    | .error _ => (.error errMsg, (sortAscCreated store).length)

/-- GET /api/judge-all. -/
def judgeAllHandler (store : List DiaryEntry)
    (oracle : Option String → Except Unit JudgmentR) : Except String (List JudgeResult) × Nat :=
  fanoutAllHandler "AI judge failed" mkJudgeResult store oracle

/-- GET /api/sabotage. -/
def sabotageAllHandler (store : List DiaryEntry)
    (oracle : Option String → Except Unit SabotageR) : Except String (List SabResult) × Nat :=
  fanoutAllHandler "Sabotage detector is not working" mkSabResult store oracle

/-- C8: on an empty store both fan-out endpoints answer `{results: []}`
without a single oracle call. -/
theorem fanout_empty_spec (oj : Option String → Except Unit JudgmentR)
    (os : Option String → Except Unit SabotageR) :
    judgeAllHandler [] oj = (.ok [], 0) ∧ sabotageAllHandler [] os = (.ok [], 0) :=
  ⟨rfl, rfl⟩

theorem promiseAll_ok {α β : Type} (f : β → Except Unit α) (l : List β)
    (res : List α) (h : promiseAll (l.map f) = .ok res) :
    res.length = l.length
    ∧ ∀ i (h1 : i < l.length) (h2 : i < res.length),
      f (l.get ⟨i, h1⟩) = .ok (res.get ⟨i, h2⟩) := by
  induction l generalizing res with
  | nil =>
    simp only [List.map_nil, promiseAll] at h
    cases h
    exact ⟨rfl, fun i h1 _ => absurd h1 (Nat.not_lt_zero i)⟩
  | cons x xs ih =>
    rw [List.map_cons] at h
    cases hx : f x with
    | error e =>
      rw [hx] at h
      simp [promiseAll] at h
    | ok a =>
      rw [hx] at h
      simp only [promiseAll] at h
      cases htail : promiseAll (xs.map f) with
      | error e =>
        rw [htail] at h
        cases h
      | ok l2 =>
        rw [htail] at h
        cases h
        obtain ⟨hlen, hidx⟩ := ih l2 htail
        refine ⟨by simp [hlen], ?_⟩
        intro i h1 h2
        cases i with
        | zero => simpa using hx
        | succ n =>
          have hn1 : n < xs.length := by simpa using h1
          have hn2 : n < l2.length := by simpa using h2
          simpa using hidx n hn1 hn2

theorem exceptMap_ok {J R : Type} (g : J → R) (x : Except Unit J) (r : R)
    (h : x.map g = .ok r) : ∃ j, x = .ok j ∧ r = g j := by
  cases x with
  | error e => simp [Except.map] at h
  | ok j =>
    refine ⟨j, rfl, ?_⟩
    simpa [Except.map] using h.symm

theorem fanout_nonempty_ok {J R : Type} (errMsg : String) (mk : DiaryEntry → J → R)
    (store : List DiaryEntry) (oracle : Option String → Except Unit J)
    (res : List R) (hne : store ≠ [])
    (h : (fanoutAllHandler errMsg mk store oracle).1 = .ok res) :
    res.length = (sortAscCreated store).length
    ∧ ∀ i (h1 : i < (sortAscCreated store).length) (h2 : i < res.length),
      ∃ j, oracle ((sortAscCreated store).get ⟨i, h1⟩).content = .ok j
        ∧ res.get ⟨i, h2⟩ = mk ((sortAscCreated store).get ⟨i, h1⟩) j := by
  have hrows : (sortAscCreated store).isEmpty = false := by
    rw [List.isEmpty_eq_false_iff_exists_mem]
    obtain ⟨x, hx⟩ := List.exists_mem_of_ne_nil store hne
    exact ⟨x, (List.perm_insertionSort earlierFirst store).mem_iff.2 hx⟩
  unfold fanoutAllHandler at h
  rw [hrows] at h
  simp only [Bool.false_eq_true, if_false] at h
  cases hp : promiseAll ((sortAscCreated store).map
      fun e => (oracle e.content).map (mk e)) with
  | error e => rw [hp] at h; cases h
  | ok res2 =>
    rw [hp] at h
    cases h
    obtain ⟨hlen, hidx⟩ := promiseAll_ok _ _ _ hp
    refine ⟨hlen, ?_⟩
    intro i h1 h2
    obtain ⟨j, hj, hr⟩ := exceptMap_ok _ _ _ (hidx i h1 h2)
    exact ⟨j, hj, hr⟩

/-- C9: on any store, a successful judge-all (resp. sabotage-all) response
carries exactly one result per stored entry, the underlying rows are in
ascending `created_at` order, and each result's id, date and content equal
those of the corresponding row. -/
theorem fanout_order_spec (store : List DiaryEntry)
    (oj : Option String → Except Unit JudgmentR)
    (os : Option String → Except Unit SabotageR)
    (resJ : List JudgeResult) (resS : List SabResult)
    (hne : store ≠ [])
    (hj : (judgeAllHandler store oj).1 = .ok resJ)
    (hs : (sabotageAllHandler store os).1 = .ok resS) :
    List.Pairwise earlierFirst (sortAscCreated store)
    ∧ List.Perm (sortAscCreated store) store
    ∧ resJ.length = (sortAscCreated store).length
    ∧ (∀ i (h1 : i < (sortAscCreated store).length) (h2 : i < resJ.length),
      (resJ.get ⟨i, h2⟩).id = ((sortAscCreated store).get ⟨i, h1⟩).id
      ∧ (resJ.get ⟨i, h2⟩).date = ((sortAscCreated store).get ⟨i, h1⟩).created_at
      ∧ (resJ.get ⟨i, h2⟩).content = ((sortAscCreated store).get ⟨i, h1⟩).content)
    ∧ resS.length = (sortAscCreated store).length
    ∧ (∀ i (h1 : i < (sortAscCreated store).length) (h2 : i < resS.length),
      (resS.get ⟨i, h2⟩).id = ((sortAscCreated store).get ⟨i, h1⟩).id
      ∧ (resS.get ⟨i, h2⟩).date = ((sortAscCreated store).get ⟨i, h1⟩).created_at
      ∧ (resS.get ⟨i, h2⟩).content = ((sortAscCreated store).get ⟨i, h1⟩).content) := by
  obtain ⟨hlenJ, hidxJ⟩ := fanout_nonempty_ok _ _ store oj resJ hne hj
  obtain ⟨hlenS, hidxS⟩ := fanout_nonempty_ok _ _ store os resS hne hs
  refine ⟨List.sorted_insertionSort earlierFirst store,
    List.perm_insertionSort earlierFirst store, hlenJ, ?_, hlenS, ?_⟩
  · intro i h1 h2
    obtain ⟨j, _, hr⟩ := hidxJ i h1 h2
    rw [hr]
    exact ⟨rfl, rfl, rfl⟩
  · intro i h1 h2
    obtain ⟨j, _, hr⟩ := hidxS i h1 h2
    rw [hr]
    exact ⟨rfl, rfl, rfl⟩

/-- A two-row store whose insertion order disagrees with its timestamps. -/
def entryLate : DiaryEntry :=
  { id := 1, content := some "late", sentiment_score := 0,
    sentiment_label := "neutral", emotions := .jsonString (fun _ => some 0),
    created_at := 5 }

/-- The earlier of the two concrete rows. -/
def entryEarly : DiaryEntry :=
  { id := 2, content := some "early", sentiment_score := 0,
    sentiment_label := "neutral", emotions := .jsonString (fun _ => some 0),
    created_at := 2 }

/-- The concrete store for the fan-out witness. -/
def storeEx : List DiaryEntry := [entryLate, entryEarly]

/-- A fixed judgment for the witness oracle. -/
def okJudgment : JudgmentR :=
  { benefit := 1, risk := 0, morality := 1, consequences := "none", verdict := "fine" }

/-- A fixed sabotage score for the witness oracle. -/
def okSabotage : SabotageR :=
  { procrastination := 0, self_deception := 0, loops := 0, summary := "clear" }

/-- The judge witness oracle: always succeeds. -/
def judgeOracleEx : Option String → Except Unit JudgmentR := fun _ => .ok okJudgment

/-- The sabotage witness oracle: always succeeds. -/
def sabOracleEx : Option String → Except Unit SabotageR := fun _ => .ok okSabotage

/-- Witness for C9 on the two-row store: rows come back sorted ascending and
the first judge result carries the earlier entry's id. -/
theorem fanout_order_spec_witness :
    List.Pairwise earlierFirst (sortAscCreated storeEx)
    ∧ ([mkJudgeResult entryEarly okJudgment,
        mkJudgeResult entryLate okJudgment] : List JudgeResult).length
      = (sortAscCreated storeEx).length :=
  ⟨(fanout_order_spec storeEx judgeOracleEx sabOracleEx
      [mkJudgeResult entryEarly okJudgment, mkJudgeResult entryLate okJudgment]
      [mkSabResult entryEarly okSabotage, mkSabResult entryLate okSabotage]
      (List.cons_ne_nil _ _) rfl rfl).1,
    (fanout_order_spec storeEx judgeOracleEx sabOracleEx
      [mkJudgeResult entryEarly okJudgment, mkJudgeResult entryLate okJudgment]
      [mkSabResult entryEarly okSabotage, mkSabResult entryLate okSabotage]
      (List.cons_ne_nil _ _) rfl rfl).2.2.1⟩

end AIDiary
